import Mathlib

/-!
Shallow embedding of the candidate-profile extraction core found in
`src/parser/llama_parser.py` (class `CandidateParser`): the deterministic
pattern extractor `deterministic_extract`, the merge of the deterministic and
generative results performed inside `parse`, and the candidate-id assignment.

Python dictionaries with string values are modelled as insertion-ordered
association lists (`Dict`).  The regular expressions of the source are
modelled by a small backtracking matcher (`Re`) with Python `re` semantics:
leftmost match position, alternatives tried in written order, greedy
quantifiers with backtracking, capture groups, word boundaries and
multiline `^`.  Every pattern used by the source repeats only single
character classes, so the repeat construct quantifies a character class.
`hashlib.md5` is embedded as the full RFC 1321 computation on byte lists.
-/

/-- A Python `dict` with string keys and string values, insertion ordered. -/
abbrev Dict := List (String × String)

namespace Dict

/-- `d.get(k)`: first binding of `k`, if any. -/
def get? : Dict → String → Option String
  | [], _ => none
  | (k', v) :: t, k => if k' = k then some v else get? t k

/-- `d[k] = v`: replace the existing binding of `k`, else append. -/
def set : Dict → String → String → Dict
  | [], k, v => [(k, v)]
  | (k', v') :: t, k, v => if k' = k then (k, v) :: t else (k', v') :: set t k v

/-- Set the key only when the optional value is present (models the
`if match: result[...][k] = value` statements of `deterministic_extract`). -/
def setOpt (d : Dict) (k : String) : Option String → Dict
  | none => d
  | some v => d.set k v

end Dict

/-- Python's ASCII whitespace for `\s`, `str.strip` and `str.split`:
space, tab, newline, carriage return, vertical tab, form feed. -/
def isPySpace (c : Char) : Bool :=
  c == ' ' || c == '\t' || c == '\n' || c == '\r' || c == '\x0b' || c == '\x0c'

/-- A `\w` word character (ASCII fragment): letter, digit or underscore. -/
def isWordChar (c : Char) : Bool := c.isAlpha || c.isDigit || c == '_'

/-- `str.lower()` (ASCII). -/
def pyLower (s : String) : String := String.mk (s.data.map Char.toLower)

/-- `str.upper()` (ASCII). -/
def pyUpper (s : String) : String := String.mk (s.data.map Char.toUpper)

/-- `str.strip()`: drop ASCII whitespace from both ends. -/
def pyStrip (s : String) : String :=
  String.mk (((s.data.dropWhile isPySpace).reverse.dropWhile isPySpace).reverse)

/-- Does `sub` occur at the start of `s`? -/
def startsWithL : List Char → List Char → Bool
  | _, [] => true
  | [], _ :: _ => false
  | c :: t, d :: u => c == d && startsWithL t u

/-- Python's `sub in s` substring test on character lists. -/
def containsL : List Char → List Char → Bool
  | s, sub =>
    startsWithL s sub ||
      match s with
      | [] => false
      | _ :: t => containsL t sub

/-! ## A small regex matcher with Python `re` semantics -/

/-- Regex abstract syntax.  `cls p lo hi` is a greedy repeat of the character
class `p` between `lo` and `hi` times (`hi = none` meaning unbounded);
a single literal character is `cls (· == c) 1 (some 1)`.  `alt` and `seq`
are ordered; `grp i` is capture group `i`; `wb` is `\b`; `bol` is a
multiline `^`. -/
inductive Re where
  | eps : Re
  | cls (p : Char → Bool) (lo : Nat) (hi : Option Nat) : Re
  | seq (a b : Re) : Re
  | alt (a b : Re) : Re
  | opt (a : Re) : Re
  | grp (i : Nat) (a : Re) : Re
  | wb : Re
  | bol : Re

/-- Matcher state: the character just before the current position (for `\b`
and `^`), the remaining input, and captures recorded so far. -/
structure MState where
  prev : Option Char
  rest : List Char
  caps : List (Nat × String)

/-- Is there a `\b` word boundary between `prev` and the next character? -/
def atBoundary (prev next : Option Char) : Bool :=
  (match prev with | none => false | some c => isWordChar c) !=
    (match next with | none => false | some c => isWordChar c)

/-- All ways (longest first, i.e. greedy) to consume between `lo` and `hi`
characters of class `p` from the state. -/
def clsOptions (p : Char → Bool) (lo : Nat) (hi : Option Nat) (st : MState) :
    List MState :=
  let maxRun := (st.rest.takeWhile p).length
  let run := match hi with | some h => min maxRun h | none => maxRun
  (List.range (run + 1 - lo)).map fun j =>
    let k := run - j
    { prev := match (st.rest.take k).getLast? with
        | some c => some c
        | none => st.prev
      rest := st.rest.drop k
      caps := st.caps }

/-- All successful continuations of matching `r` from state `st`, in
backtracking preference order (Python `re` tries alternatives in written
order and quantifiers greedily). -/
def Re.mtch : Re → MState → List MState
  | .eps, st => [st]
  | .cls p lo hi, st => clsOptions p lo hi st
  | .seq a b, st => (a.mtch st).flatMap b.mtch
  | .alt a b, st => a.mtch st ++ b.mtch st
  | .opt a, st => a.mtch st ++ [st]
  | .grp i a, st =>
    (a.mtch st).map fun st2 =>
      { st2 with
        caps := st2.caps ++
          [(i, String.mk (st.rest.take (st.rest.length - st2.rest.length)))] }
  | .wb, st => if atBoundary st.prev st.rest.head? then [st] else []
  | .bol, st =>
    match st.prev with
    | none => [st]
    | some c => if c = '\n' then [st] else []

/-- A match: the full matched text (`group(0)`) and the captures. -/
structure RMatch where
  matched : String
  caps : List (Nat × String)

/-- `m.group(i)`; a non-participating group yields `""` (the value
`re.findall` reports for it). -/
def RMatch.group (m : RMatch) (i : Nat) : String :=
  if i = 0 then m.matched
  else (((m.caps.find? fun p => p.1 = i).map Prod.snd).getD "")

/-- `re.search` from a given scan point: try to match here, else advance one
character; the first position with a match wins (leftmost). -/
def Re.searchAux (r : Re) (prev : Option Char) (s : List Char) : Option RMatch :=
  match r.mtch { prev := prev, rest := s, caps := [] } with
  | st1 :: _ =>
    some { matched := String.mk (s.take (s.length - st1.rest.length))
           caps := st1.caps }
  | [] =>
    match s with
    | [] => none
    | c :: t => r.searchAux (some c) t
termination_by structural s

/-- `re.search(r, text)`. -/
def reSearch (r : Re) (text : String) : Option RMatch := r.searchAux none text.data

/-- Literal character. -/
def reChr (c : Char) : Re := .cls (fun x => x == c) 1 (some 1)

/-- Literal character under `re.IGNORECASE`. -/
def reChrCI (c : Char) : Re := .cls (fun x => x.toLower == c.toLower) 1 (some 1)

/-- Literal string. -/
def reStr (s : String) : Re := (s.data.map reChr).foldr .seq .eps

/-- Literal string under `re.IGNORECASE`. -/
def reStrCI (s : String) : Re := (s.data.map reChrCI).foldr .seq .eps

/-- Sequence of a list of regexes. -/
def reSeq (rs : List Re) : Re := rs.foldr .seq .eps

/-- Ordered alternation of a non-empty list of regexes. -/
def reAlt : List Re → Re
  | [] => .cls (fun _ => false) 1 (some 1)
  | [r] => r
  | r :: rs => .alt r (reAlt rs)

/-- Does the pattern define any capture group (Python `m.groups()` truthiness
depends on the pattern, not on participation)? -/
def Re.hasGroup : Re → Bool
  | .eps | .cls _ _ _ | .wb | .bol => false
  | .seq a b | .alt a b => a.hasGroup || b.hasGroup
  | .opt a => a.hasGroup
  | .grp _ _ => true

/-- First pattern of the list that matches, as in the source's
`for pattern in ...: match = re.search(pattern, ...); if match: ...; break`. -/
def firstSearch : List Re → String → Option RMatch
  | [], _ => none
  | p :: ps, t =>
    match reSearch p t with
    | some m => some m
    | none => firstSearch ps t

/-! ## The regex patterns of `deterministic_extract`, one per source rule -/

/-- `email_pattern = r'\b[A-Za-z0-9._%+-]+@[A-Za-z0-9.-]+\.[A-Z|a-z]{2,}\b'`
(the final class literally contains `|`, as written in the source). -/
def emailRe : Re :=
  reSeq [.wb,
    .cls (fun c => c.isAlpha || c.isDigit || c == '.' || c == '_' || c == '%'
      || c == '+' || c == '-') 1 none,
    reChr '@',
    .cls (fun c => c.isAlpha || c.isDigit || c == '.' || c == '-') 1 none,
    reChr '.',
    .cls (fun c => ('A' ≤ c && c ≤ 'Z') || c == '|' || ('a' ≤ c && c ≤ 'z')) 2 none,
    .wb]

/-- `phone_pattern = r'(\+91[\s-]?)?[6-9]\d{9}|\b0?[6-9]\d{9}\b'`. -/
def phoneRe : Re :=
  .alt
    (reSeq [.opt (.grp 1 (reSeq [reStr "+91",
        .cls (fun c => isPySpace c || c == '-') 0 (some 1)])),
      .cls (fun c => '6' ≤ c && c ≤ '9') 1 (some 1),
      .cls Char.isDigit 9 (some 9)])
    (reSeq [.wb,
      .cls (fun c => c == '0') 0 (some 1),
      .cls (fun c => '6' ≤ c && c ≤ '9') 1 (some 1),
      .cls Char.isDigit 9 (some 9),
      .wb])

/-- `pan_pattern = r'[A-Z]{5}[0-9]{4}[A-Z]'` (run against the upper-cased text). -/
def panRe : Re :=
  reSeq [.cls (fun c => 'A' ≤ c && c ≤ 'Z') 5 (some 5),
    .cls Char.isDigit 4 (some 4),
    .cls (fun c => 'A' ≤ c && c ≤ 'Z') 1 (some 1)]

/-- `uan_pattern = r'\b\d{12}\b'`. -/
def uanRe : Re := reSeq [.wb, .cls Char.isDigit 12 (some 12), .wb]

/-- `passport_pattern = r'[A-Z]{1}[0-9]{7}|[A-Z]{2}[0-9]{7}'`
(run against the upper-cased text). -/
def passportRe : Re :=
  .alt
    (reSeq [.cls (fun c => 'A' ≤ c && c ≤ 'Z') 1 (some 1),
      .cls Char.isDigit 7 (some 7)])
    (reSeq [.cls (fun c => 'A' ≤ c && c ≤ 'Z') 2 (some 2),
      .cls Char.isDigit 7 (some 7)])

/-- First DOB pattern: day, month (1-2 digits each) and a 4-digit year,
separated by a slash or dash, with word boundaries around the whole. -/
def dobRe1 : Re :=
  reSeq [.wb, .grp 1 (.cls Char.isDigit 1 (some 2)),
    .cls (fun c => c == '/' || c == '-') 1 (some 1),
    .grp 2 (.cls Char.isDigit 1 (some 2)),
    .cls (fun c => c == '/' || c == '-') 1 (some 1),
    .grp 3 (.cls Char.isDigit 4 (some 4)), .wb]

/-- Second DOB pattern: year-first numeric form, 4-digit year then two 1-2
digit fields, separated by a slash or dash, with word boundaries. -/
def dobRe2 : Re :=
  reSeq [.wb, .grp 1 (.cls Char.isDigit 4 (some 4)),
    .cls (fun c => c == '/' || c == '-') 1 (some 1),
    .grp 2 (.cls Char.isDigit 1 (some 2)),
    .cls (fun c => c == '/' || c == '-') 1 (some 1),
    .grp 3 (.cls Char.isDigit 1 (some 2)), .wb]

/-- `r'\b(?:jan|feb|mar|apr|may|jun|jul|aug|sep|oct|nov|dec)[a-z]*\s+\d{1,2},?\s+\d{4}\b'`
compiled with `re.IGNORECASE`, under which `[a-z]` also matches capitals. -/
def dobRe3 : Re :=
  reSeq [.wb,
    reAlt [reStrCI "jan", reStrCI "feb", reStrCI "mar", reStrCI "apr",
      reStrCI "may", reStrCI "jun", reStrCI "jul", reStrCI "aug",
      reStrCI "sep", reStrCI "oct", reStrCI "nov", reStrCI "dec"],
    .cls Char.isAlpha 0 none,
    .cls isPySpace 1 none,
    .cls Char.isDigit 1 (some 2),
    .cls (fun c => c == ',') 0 (some 1),
    .cls isPySpace 1 none,
    .cls Char.isDigit 4 (some 4), .wb]

/-- `dob_patterns`, tried in order; the first with a match wins. -/
def dob_patterns : List Re := [dobRe1, dobRe2, dobRe3]

/-- `r'(?:name|candidate name|full name)[\s:]+([A-Z][a-zA-Z\s]+)'` compiled
with `re.IGNORECASE | re.MULTILINE`; under `IGNORECASE`, `[A-Z]` matches
any ASCII letter. -/
def nameRe1 : Re :=
  reSeq [reAlt [reStrCI "name", reStrCI "candidate name", reStrCI "full name"],
    .cls (fun c => isPySpace c || c == ':') 1 none,
    .grp 1 (reSeq [.cls Char.isAlpha 1 (some 1),
      .cls (fun c => c.isAlpha || isPySpace c) 1 none])]

/-- `r'^([A-Z][a-zA-Z\s]{2,})'` compiled with `re.IGNORECASE | re.MULTILINE`. -/
def nameRe2 : Re :=
  reSeq [.bol,
    .grp 1 (reSeq [.cls Char.isAlpha 1 (some 1),
      .cls (fun c => c.isAlpha || isPySpace c) 2 none])]

/-- `name_patterns`. -/
def name_patterns : List Re := [nameRe1, nameRe2]

/-- `r'(?:designation|title|position)[\s:]+([A-Za-z\s]+)'` with `IGNORECASE`. -/
def desigRe1 : Re :=
  reSeq [reAlt [reStrCI "designation", reStrCI "title", reStrCI "position"],
    .cls (fun c => isPySpace c || c == ':') 1 none,
    .grp 1 (.cls (fun c => c.isAlpha || isPySpace c) 1 none)]

/-- `r'(?:software engineer|developer|manager|analyst|consultant|engineer)'`
with `IGNORECASE`; defines no capture group. -/
def desigRe2 : Re :=
  reAlt [reStrCI "software engineer", reStrCI "developer", reStrCI "manager",
    reStrCI "analyst", reStrCI "consultant", reStrCI "engineer"]

/-- `designation_patterns`. -/
def designation_patterns : List Re := [desigRe1, desigRe2]

/-- `r'\b(male|female|other|m|f)\b'` (run against the lower-cased text). -/
def genderRe : Re :=
  reSeq [.wb,
    .grp 1 (reAlt [reStr "male", reStr "female", reStr "other",
      reStr "m", reStr "f"]),
    .wb]

/-- `r'(?:nationality|citizen)[\s:]+([A-Za-z]+)'` with `IGNORECASE`. -/
def nationalityRe : Re :=
  reSeq [reAlt [reStrCI "nationality", reStrCI "citizen"],
    .cls (fun c => isPySpace c || c == ':') 1 none,
    .grp 1 (.cls Char.isAlpha 1 none)]

/-! ## The per-field rules of `deterministic_extract` -/

/-- Email rule: `re.findall(email_pattern, text)`, first match (the pattern
has no group, so `findall` reports the full match). -/
def emailRule (text : String) : Option String :=
  (reSearch emailRe text).map (·.matched)

/-- Phone rule: `re.findall(phone_pattern, text)` — the pattern defines one
group, so `findall` reports the text captured by group 1 (the optional
country-code prefix), `''` when the group did not participate; the source
then strips hyphens and spaces from that value. -/
def phoneRule (text : String) : Option String :=
  (reSearch phoneRe text).map fun m =>
    String.mk ((m.group 1).data.filter fun c => !(c == '-') && !(c == ' '))

/-- PAN rule: `re.findall(pan_pattern, text.upper())`, first full match. -/
def panRule (text : String) : Option String :=
  (reSearch panRe (pyUpper text)).map (·.matched)

/-- UAN rule: `re.findall(uan_pattern, text)`, first full match. -/
def uanRule (text : String) : Option String :=
  (reSearch uanRe text).map (·.matched)

/-- Passport rule: `re.findall(passport_pattern, text.upper())`, first match. -/
def passportRule (text : String) : Option String :=
  (reSearch passportRe (pyUpper text)).map (·.matched)

/-- DOB rule: first pattern of `dob_patterns` with a search hit;
`match.group(0)`. -/
def dobRule (text : String) : Option String :=
  (firstSearch dob_patterns text).map (·.matched)

/-- Name rule: first pattern of `name_patterns` with a search hit;
`match.group(1).strip()`. -/
def nameRule (text : String) : Option String :=
  (firstSearch name_patterns text).map fun m => pyStrip (m.group 1)

/-- Designation rule: first pattern of `designation_patterns` with a hit;
`group(1).strip()` when the pattern defines groups, else `group(0)`. -/
def designationRule (text : String) : Option String :=
  designationLoop designation_patterns text
where
  designationLoop : List Re → String → Option String
    | [], _ => none
    | p :: ps, t =>
      match reSearch p t with
      | some m => some (if p.hasGroup then pyStrip (m.group 1) else m.matched)
      | none => designationLoop ps t

/-- Gender rule: `re.search(r'\b(male|female|other|m|f)\b', text_lower)`,
`group(1)`. -/
def genderRule (text : String) : Option String :=
  (reSearch genderRe (pyLower text)).map (·.group 1)

/-- Nationality rule: `group(1).strip()`. -/
def nationalityRule (text : String) : Option String :=
  (reSearch nationalityRe text).map fun m => pyStrip (m.group 1)

/-- `address_keywords`. -/
def address_keywords : List String :=
  ["address", "residence", "location", "city", "state", "pincode"]

/-- Python `text.split('\n')` on character lists: every newline separates,
the empty string splits to one empty field. -/
def splitOnNl : List Char → List (List Char)
  | [] => [[]]
  | c :: t =>
    let r := splitOnNl t
    if c = '\n' then [] :: r
    else
      match r with
      | [] => [[c]]
      | h :: t2 => (c :: h) :: t2

/-- Python `text.split('\n')`. -/
def pySplitNl (s : String) : List String := (splitOnNl s.data).map String.mk

/-- The qualifying address lines: split the text on newlines, keep (stripped)
each line whose lower-casing contains one of the keywords. -/
def addressLines (text : String) : List String :=
  (pySplitNl text).filterMap fun line =>
    if address_keywords.any (fun k => containsL (pyLower line).data k.data) then
      some (pyStrip line)
    else none

/-- The `identity` group built by `deterministic_extract`, keys set in source
order when the corresponding rule matches. -/
def detIdentity (text : String) : Dict :=
  Dict.setOpt
    (Dict.setOpt
      (Dict.setOpt
        (Dict.setOpt
          (Dict.setOpt
            (Dict.setOpt
              (Dict.setOpt ([] : Dict) "email" (emailRule text))
              "phone" (phoneRule text))
            "dob" (dobRule text))
          "name" (nameRule text))
        "designation" (designationRule text))
      "gender" (genderRule text))
    "nationality" (nationalityRule text)

/-- The `documents` group built by `deterministic_extract`. -/
def detDocuments (text : String) : Dict :=
  Dict.setOpt
    (Dict.setOpt
      (Dict.setOpt ([] : Dict) "pan_number" (panRule text))
      "uan_number" (uanRule text))
    "passport_number" (passportRule text)

/-- The `addresses` group built by `deterministic_extract`: first three
qualifying lines joined with spaces into `current`, lines 3..5 into
`permanent` (falling back to `current` when at most three lines exist);
no keys at all when no line qualifies. -/
def detAddresses (text : String) : Dict :=
  let q := addressLines text
  if q = [] then []
  else
    let current := String.intercalate " " (q.take 3)
    Dict.set (Dict.set ([] : Dict) "current" current) "permanent"
      (if 3 < q.length then String.intercalate " " ((q.drop 3).take 3)
       else current)

/-- The record produced by the core: the five top-level groups of the result
dictionary literal of `deterministic_extract`. -/
structure CandidateRecord where
  identity : Dict
  documents : Dict
  education : List Dict
  experience : List Dict
  addresses : Dict
deriving Repr, DecidableEq

/-- The top-level keys of the result dictionary of `deterministic_extract`
(and of the schema embedded in the generative prompt). -/
def topLevelGroups : List String :=
  ["identity", "documents", "education", "experience", "addresses"]

/-- `CandidateParser.deterministic_extract`. -/
def deterministic_extract (text : String) : CandidateRecord :=
  { identity := detIdentity text
    documents := detDocuments text
    education := []
    experience := []
    addresses := detAddresses text }

/-! ## `hashlib.md5` (RFC 1321), over byte lists -/

/-- UTF-8 encoding of one character (Python `str.encode()`). -/
def utf8Char (c : Char) : List Nat :=
  let n := c.toNat
  if n < 0x80 then [n]
  else if n < 0x800 then [0xC0 + n / 0x40, 0x80 + n % 0x40]
  else if n < 0x10000 then
    [0xE0 + n / 0x1000, 0x80 + (n / 0x40) % 0x40, 0x80 + n % 0x40]
  else
    [0xF0 + n / 0x40000, 0x80 + (n / 0x1000) % 0x40, 0x80 + (n / 0x40) % 0x40,
      0x80 + n % 0x40]

/-- UTF-8 bytes of a string (Python `str.encode()`). -/
def utf8Bytes (s : String) : List Nat := s.data.flatMap utf8Char

/-- 2 to the 32nd, the word modulus of MD5. -/
def m32 : Nat := 4294967296

/-- Left-rotate a 32-bit word by `n` bits. -/
def rotl32 (x n : Nat) : Nat := ((x * 2 ^ n) % m32) + x / 2 ^ (32 - n)

/-- The 64 MD5 sine-derived constants. -/
def md5K : List Nat :=
  [0xd76aa478, 0xe8c7b756, 0x242070db, 0xc1bdceee,
   0xf57c0faf, 0x4787c62a, 0xa8304613, 0xfd469501,
   0x698098d8, 0x8b44f7af, 0xffff5bb1, 0x895cd7be,
   0x6b901122, 0xfd987193, 0xa679438e, 0x49b40821,
   0xf61e2562, 0xc040b340, 0x265e5a51, 0xe9b6c7aa,
   0xd62f105d, 0x02441453, 0xd8a1e681, 0xe7d3fbc8,
   0x21e1cde6, 0xc33707d6, 0xf4d50d87, 0x455a14ed,
   0xa9e3e905, 0xfcefa3f8, 0x676f02d9, 0x8d2a4c8a,
   0xfffa3942, 0x8771f681, 0x6d9d6122, 0xfde5380c,
   0xa4beea44, 0x4bdecfa9, 0xf6bb4b60, 0xbebfbc70,
   0x289b7ec6, 0xeaa127fa, 0xd4ef3085, 0x04881d05,
   0xd9d4d039, 0xe6db99e5, 0x1fa27cf8, 0xc4ac5665,
   0xf4292244, 0x432aff97, 0xab9423a7, 0xfc93a039,
   0x655b59c3, 0x8f0ccc92, 0xffeff47d, 0x85845dd1,
   0x6fa87e4f, 0xfe2ce6e0, 0xa3014314, 0x4e0811a1,
   0xf7537e82, 0xbd3af235, 0x2ad7d2bb, 0xeb86d391]

/-- The 64 MD5 per-round left-rotation amounts. -/
def md5S : List Nat :=
  [7, 12, 17, 22, 7, 12, 17, 22, 7, 12, 17, 22, 7, 12, 17, 22,
   5, 9, 14, 20, 5, 9, 14, 20, 5, 9, 14, 20, 5, 9, 14, 20,
   4, 11, 16, 23, 4, 11, 16, 23, 4, 11, 16, 23, 4, 11, 16, 23,
   6, 10, 15, 21, 6, 10, 15, 21, 6, 10, 15, 21, 6, 10, 15, 21]

/-- One MD5 round step `i` on state `(a, b, c, d)` with message words `msg`. -/
def md5Step (msg : List Nat) (st : Nat × Nat × Nat × Nat) (i : Nat) :
    Nat × Nat × Nat × Nat :=
  let (a, b, c, d) := st
  let f :=
    if i < 16 then (b &&& c) ||| ((b ^^^ (m32 - 1)) &&& d)
    else if i < 32 then (d &&& b) ||| ((d ^^^ (m32 - 1)) &&& c)
    else if i < 48 then b ^^^ c ^^^ d
    else c ^^^ (b ||| (d ^^^ (m32 - 1)))
  let g :=
    if i < 16 then i
    else if i < 32 then (5 * i + 1) % 16
    else if i < 48 then (3 * i + 5) % 16
    else (7 * i) % 16
  let tmp := (a + f + md5K.getD i 0 + msg.getD g 0) % m32
  (d, (b + rotl32 tmp (md5S.getD i 0)) % m32, b, c)

/-- The 16 little-endian 32-bit words of one 64-byte chunk. -/
def chunkWords (chunk : List Nat) : List Nat :=
  (List.range 16).map fun j =>
    chunk.getD (4 * j) 0 + 256 * chunk.getD (4 * j + 1) 0 +
      65536 * chunk.getD (4 * j + 2) 0 + 16777216 * chunk.getD (4 * j + 3) 0

/-- Process one 64-byte chunk into the running state. -/
def md5Chunk (st : Nat × Nat × Nat × Nat) (chunk : List Nat) :
    Nat × Nat × Nat × Nat :=
  let msg := chunkWords chunk
  let (a, b, c, d) := (List.range 64).foldl (md5Step msg) st
  let (a0, b0, c0, d0) := st
  ((a0 + a) % m32, (b0 + b) % m32, (c0 + c) % m32, (d0 + d) % m32)

/-- Split a byte list into 64-byte chunks (the fuel, one unit per input
byte plus one, always suffices since each chunk consumes 64 bytes). -/
def toChunksAux : Nat → List Nat → List (List Nat)
  | 0, _ => []
  | _, [] => []
  | fuel + 1, l =>
    if l.length ≤ 64 then [l]
    else l.take 64 :: toChunksAux fuel (l.drop 64)

/-- Split a byte list into 64-byte chunks. -/
def toChunks (l : List Nat) : List (List Nat) := toChunksAux (l.length + 1) l

/-- The `n` low-order bytes of a number, little-endian. -/
def leBytes : Nat → Nat → List Nat
  | 0, _ => []
  | n + 1, x => x % 256 :: leBytes n (x / 256)

/-- MD5 padding: append `0x80`, zeros to 56 mod 64, and the 64-bit
little-endian bit length. -/
def md5Pad (msg : List Nat) : List Nat :=
  let zeros := (120 - (msg.length + 1) % 64) % 64
  msg ++ [0x80] ++ List.replicate zeros 0 ++
    leBytes 8 ((8 * msg.length) % (2 ^ 64))

/-- The 16 digest bytes of a byte message. -/
def md5Bytes (msg : List Nat) : List Nat :=
  let (a, b, c, d) :=
    (toChunks (md5Pad msg)).foldl md5Chunk
      (0x67452301, 0xefcdab89, 0x98badcfe, 0x10325476)
  leBytes 4 a ++ leBytes 4 b ++ leBytes 4 c ++ leBytes 4 d

/-- One lower-case hex character, as in CPython's `hexdigest` (0-9 then a-f;
the argument is reduced mod 16, the identity for every byte nibble). -/
def hexChar (n : Nat) : Char := Nat.digitChar (n % 16)

/-- Lower-case hex characters of a byte list, two per byte. -/
def hexChars (bytes : List Nat) : List Char :=
  bytes.flatMap fun b => [hexChar (b / 16), hexChar (b % 16)]

/-- `hashlib.md5(s.encode()).hexdigest()`. -/
def md5Hexdigest (s : String) : String := String.mk (hexChars (md5Bytes (utf8Bytes s)))

/-- `hashlib.md5(source.encode()).hexdigest()[:8].upper()`, the generated
candidate identifier of `parse`. -/
def md5Hex8Upper (s : String) : String :=
  String.mk (((md5Hexdigest s).data.take 8).map Char.toUpper)

/-! ## The merge performed by `parse` -/

/-- The structure of the generative (`llama_extract`) result that the merge
inspects.  A missing group and an empty group are indistinguishable to the
merge (`llama_result.get(...)` is falsy for both), so each group is carried
directly; the whole-result-empty case is `llamaEmpty`. -/
structure LlamaResult where
  identity : Dict
  documents : Dict
  education : List Dict
  experience : List Dict
  addresses : Dict
deriving Repr, DecidableEq

/-- The empty generative result `{}` — what `llama_extract` returns when no
model is loaded or when generation or JSON parsing fails. -/
def llamaEmpty : LlamaResult :=
  { identity := [], documents := [], education := [], experience := []
    addresses := [] }

/-- `for key, value in src.items(): if value and value != "":
base[key] = value` — overwrite `base` with every non-empty value of `src`. -/
def mergeDict (base src : Dict) : Dict :=
  src.foldl (fun acc kv => if kv.2 ≠ "" then Dict.set acc kv.1 kv.2 else acc) base

/-- `for key in keys: if key not in base: base[key] = ""`. -/
def ensureKeys (base : Dict) (keys : List String) : Dict :=
  keys.foldl
    (fun acc k => if (Dict.get? acc k).isSome then acc else Dict.set acc k "")
    base

/-- The identity keys the merge fills in (`parse`, line 345). -/
def identityKeys : List String :=
  ["candidate_id", "name", "designation", "email", "phone", "dob", "gender",
   "nationality"]

/-- The documents keys the merge fills in (`parse`, line 354). -/
def documentKeys : List String :=
  ["pan_number", "uan_number", "passport_number", "valid_from", "valid_to"]

/-- The merge of `parse` (lines 337-369): generative values win when
non-empty, schema keys are ensured in a group only when the generative
result supplies that group, education and experience are replaced
wholesale when non-empty, addresses are overwritten per key. -/
def mergeResults (det : CandidateRecord) (l : LlamaResult) : CandidateRecord :=
  let identity :=
    if l.identity ≠ [] then ensureKeys (mergeDict det.identity l.identity) identityKeys
    else det.identity
  let documents :=
    if l.documents ≠ [] then
      ensureKeys (mergeDict det.documents l.documents) documentKeys
    else det.documents
  let education := if l.education ≠ [] then l.education else det.education
  let experience := if l.experience ≠ [] then l.experience else det.experience
  let addresses :=
    if l.addresses ≠ [] then
      let a :=
        if (Dict.get? l.addresses "current").getD "" ≠ "" then
          Dict.set det.addresses "current" ((Dict.get? l.addresses "current").getD "")
        else det.addresses
      if (Dict.get? l.addresses "permanent").getD "" ≠ "" then
        Dict.set a "permanent" ((Dict.get? l.addresses "permanent").getD "")
      else a
    else det.addresses
  { identity := identity, documents := documents, education := education
    experience := experience, addresses := addresses }

/-- `candidate_id_source = result["identity"].get("email") or file_path`. -/
def cidSource (filePath : String) (r : CandidateRecord) : String :=
  if (Dict.get? r.identity "email").getD "" ≠ "" then
    (Dict.get? r.identity "email").getD ""
  else filePath

/-- Lines 372-375 of `parse`: when `identity.candidate_id` is missing or
empty, set it to the upper-cased first 8 hex characters of the MD5 of the
resolved email, or of the file path when no email was resolved. -/
def assignCandidateId (filePath : String) (r : CandidateRecord) : CandidateRecord :=
  if (Dict.get? r.identity "candidate_id").getD "" = "" then
    { r with identity :=
        Dict.set r.identity "candidate_id" (md5Hex8Upper (cidSource filePath r)) }
  else r

/-- The record `parse` produces for non-empty extracted text. -/
def mergedRecord (filePath text : String) (l : LlamaResult) : CandidateRecord :=
  assignCandidateId filePath (mergeResults (deterministic_extract text) l)

/-- `CandidateParser.parse`, parametrised by the extracted text and the
generative result (text extraction and model inference are external I/O):
empty text short-circuits to the empty dictionary `{}` (modelled `none`);
otherwise the deterministic result is merged with the generative one and a
candidate id is assigned. -/
def parse (filePath text : String) (l : LlamaResult) : Option CandidateRecord :=
  if text = "" then none
  else some (mergedRecord filePath text l)

/-! ## Dictionary lemmas -/

namespace Dict

theorem get?_nil (k : String) : get? [] k = none := rfl

theorem get?_set_self (d : Dict) (k v : String) : get? (set d k v) k = some v := by
  induction d with
  | nil => simp [set, get?]
  | cons hd t ih =>
    rcases hd with ⟨k', v'⟩
    by_cases h : k' = k
    · simp [set, h, get?]
    · simp [set, h, get?, ih]

theorem get?_set_ne (d : Dict) (k v j : String) (h : j ≠ k) :
    get? (set d k v) j = get? d j := by
  induction d with
  | nil => simp [set, get?, Ne.symm h]
  | cons hd t ih =>
    rcases hd with ⟨k', v'⟩
    by_cases hk : k' = k
    · subst hk
      simp [set, get?, Ne.symm h]
    · simp [set, hk, get?, ih]

theorem get?_setOpt_ne (d : Dict) (k j : String) (o : Option String) (h : j ≠ k) :
    get? (setOpt d k o) j = get? d j := by
  cases o with
  | none => rfl
  | some v => exact get?_set_ne d k v j h

theorem get?_setOpt_same (d : Dict) (k : String) (o : Option String) :
    get? (setOpt d k o) k = o.or (get? d k) := by
  cases o with
  | none => rfl
  | some v => simp [setOpt, get?_set_self, Option.or]

theorem get?_set_isSome (d : Dict) (k v j : String) (h : (get? d j).isSome) :
    (get? (set d k v) j).isSome := by
  by_cases hj : j = k
  · subst hj; simp [get?_set_self]
  · rwa [get?_set_ne d k v j hj]

end Dict

/-! ## Projection lemmas: each field of the deterministic record is exactly
its own rule's output, so no rule interferes with another -/

theorem detIdentity_email (text : String) :
    Dict.get? (detIdentity text) "email" = emailRule text := by
  simp [detIdentity, Dict.get?_setOpt_ne, Dict.get?_setOpt_same, Dict.get?_nil]

theorem detIdentity_phone (text : String) :
    Dict.get? (detIdentity text) "phone" = phoneRule text := by
  simp [detIdentity, Dict.get?_setOpt_ne, Dict.get?_setOpt_same, Dict.get?_nil]

theorem detIdentity_dob (text : String) :
    Dict.get? (detIdentity text) "dob" = dobRule text := by
  simp [detIdentity, Dict.get?_setOpt_ne, Dict.get?_setOpt_same, Dict.get?_nil]

theorem detIdentity_name (text : String) :
    Dict.get? (detIdentity text) "name" = nameRule text := by
  simp [detIdentity, Dict.get?_setOpt_ne, Dict.get?_setOpt_same, Dict.get?_nil]

theorem detIdentity_designation (text : String) :
    Dict.get? (detIdentity text) "designation" = designationRule text := by
  simp [detIdentity, Dict.get?_setOpt_ne, Dict.get?_setOpt_same, Dict.get?_nil]

theorem detIdentity_gender (text : String) :
    Dict.get? (detIdentity text) "gender" = genderRule text := by
  simp [detIdentity, Dict.get?_setOpt_ne, Dict.get?_setOpt_same, Dict.get?_nil]

theorem detIdentity_nationality (text : String) :
    Dict.get? (detIdentity text) "nationality" = nationalityRule text := by
  simp [detIdentity, Dict.get?_setOpt_ne, Dict.get?_setOpt_same, Dict.get?_nil]

theorem detIdentity_no_candidate_id (text : String) :
    Dict.get? (detIdentity text) "candidate_id" = none := by
  simp [detIdentity, Dict.get?_setOpt_ne, Dict.get?_nil]

theorem detDocuments_pan (text : String) :
    Dict.get? (detDocuments text) "pan_number" = panRule text := by
  simp [detDocuments, Dict.get?_setOpt_ne, Dict.get?_setOpt_same, Dict.get?_nil]

theorem detDocuments_uan (text : String) :
    Dict.get? (detDocuments text) "uan_number" = uanRule text := by
  simp [detDocuments, Dict.get?_setOpt_ne, Dict.get?_setOpt_same, Dict.get?_nil]

theorem detDocuments_passport (text : String) :
    Dict.get? (detDocuments text) "passport_number" = passportRule text := by
  simp [detDocuments, Dict.get?_setOpt_ne, Dict.get?_setOpt_same, Dict.get?_nil]

/-! ## Merge lemmas -/

theorem mergeDict_cons (base : Dict) (k' v' : String) (t : Dict) :
    mergeDict base ((k', v') :: t) =
      mergeDict (if v' ≠ "" then Dict.set base k' v' else base) t := rfl

theorem mergeDict_get?_of_notMem (base src : Dict) (k : String)
    (h : k ∉ src.map Prod.fst) :
    Dict.get? (mergeDict base src) k = Dict.get? base k := by
  induction src generalizing base with
  | nil => rfl
  | cons hd t ih =>
    rcases hd with ⟨k', v'⟩
    simp only [List.map_cons, List.mem_cons] at h
    push_neg at h
    rw [mergeDict_cons, ih _ h.2]
    by_cases hv : v' = ""
    · simp [hv]
    · simp [hv, Dict.get?_set_ne base k' v' k h.1]

theorem mergeDict_get?_of_mem (base src : Dict) (k v : String)
    (hnd : (src.map Prod.fst).Nodup) (hm : (k, v) ∈ src) (hv : v ≠ "") :
    Dict.get? (mergeDict base src) k = some v := by
  induction src generalizing base with
  | nil => cases hm
  | cons hd t ih =>
    rcases hd with ⟨k', v'⟩
    simp only [List.map_cons, List.nodup_cons] at hnd
    rcases List.mem_cons.mp hm with hh | ht
    · cases hh
      rw [mergeDict_cons, if_pos hv,
        mergeDict_get?_of_notMem _ _ _ hnd.1, Dict.get?_set_self]
    · rw [mergeDict_cons]
      exact ih _ hnd.2 ht

theorem mergeDict_get?_of_mem_empty (base src : Dict) (k : String)
    (hnd : (src.map Prod.fst).Nodup) (hm : (k, "") ∈ src) :
    Dict.get? (mergeDict base src) k = Dict.get? base k := by
  induction src generalizing base with
  | nil => cases hm
  | cons hd t ih =>
    rcases hd with ⟨k', v'⟩
    simp only [List.map_cons, List.nodup_cons] at hnd
    rcases List.mem_cons.mp hm with hh | ht
    · cases hh
      rw [mergeDict_cons, if_neg (by simp),
        mergeDict_get?_of_notMem _ _ _ hnd.1]
    · have hk : k ≠ k' := by
        intro he
        exact hnd.1 (he ▸ (List.mem_map_of_mem Prod.fst ht))
      rw [mergeDict_cons]
      rw [ih _ hnd.2 ht]
      by_cases hv : v' = ""
      · simp [hv]
      · simp [hv, Dict.get?_set_ne base k' v' k hk]

theorem mergeDict_isSome (base src : Dict) (k : String)
    (h : (Dict.get? base k).isSome) :
    (Dict.get? (mergeDict base src) k).isSome := by
  induction src generalizing base with
  | nil => exact h
  | cons hd t ih =>
    rcases hd with ⟨k', v'⟩
    rw [mergeDict_cons]
    apply ih
    by_cases hv : v' = ""
    · simpa [hv] using h
    · simp only [hv, ne_eq, not_false_iff, if_true]
      exact Dict.get?_set_isSome base k' v' k h


theorem ensureKeys_cons (base : Dict) (k' : String) (ks : List String) :
    ensureKeys base (k' :: ks) =
      ensureKeys
        (if (Dict.get? base k').isSome then base else Dict.set base k' "") ks := rfl

theorem ensureKeys_get?_of_isSome (base : Dict) (ks : List String) (k : String)
    (h : (Dict.get? base k).isSome) :
    Dict.get? (ensureKeys base ks) k = Dict.get? base k := by
  induction ks generalizing base with
  | nil => rfl
  | cons k' t ih =>
    rw [ensureKeys_cons]
    by_cases hs : (Dict.get? base k').isSome
    · rw [if_pos hs, ih _ h]
    · rw [if_neg hs]
      by_cases hk : k = k'
      · subst hk
        exact absurd h hs
      · rw [ih _ (Dict.get?_set_isSome base k' "" k h),
          Dict.get?_set_ne base k' "" k hk]

theorem ensureKeys_isSome_mono (base : Dict) (ks : List String) (k : String)
    (h : (Dict.get? base k).isSome) :
    (Dict.get? (ensureKeys base ks) k).isSome := by
  rw [ensureKeys_get?_of_isSome base ks k h]; exact h

theorem ensureKeys_isSome_of_mem (base : Dict) (ks : List String) (k : String)
    (h : k ∈ ks) :
    (Dict.get? (ensureKeys base ks) k).isSome := by
  induction ks generalizing base with
  | nil => cases h
  | cons k' t ih =>
    rw [ensureKeys_cons]
    rcases List.mem_cons.mp h with hh | ht
    · subst hh
      by_cases hs : (Dict.get? base k).isSome
      · rw [if_pos hs]
        exact ensureKeys_isSome_mono _ _ _ hs
      · rw [if_neg hs]
        apply ensureKeys_isSome_mono
        simp [Dict.get?_set_self]
    · by_cases hs : (Dict.get? base k').isSome
      · rw [if_pos hs]; exact ih _ ht
      · rw [if_neg hs]; exact ih _ ht

/-! ## Candidate-id assignment lemmas -/

theorem assignCandidateId_identity_cid (filePath : String) (r : CandidateRecord) :
    Dict.get? (assignCandidateId filePath r).identity "candidate_id" =
      if (Dict.get? r.identity "candidate_id").getD "" = "" then
        some (md5Hex8Upper (cidSource filePath r))
      else Dict.get? r.identity "candidate_id" := by
  rw [assignCandidateId]
  by_cases h : (Dict.get? r.identity "candidate_id").getD "" = ""
  · rw [if_pos h, if_pos h]
    exact Dict.get?_set_self _ _ _
  · rw [if_neg h, if_neg h]

theorem assignCandidateId_identity_ne (filePath : String) (r : CandidateRecord)
    (k : String) (h : k ≠ "candidate_id") :
    Dict.get? (assignCandidateId filePath r).identity k =
      Dict.get? r.identity k := by
  rw [assignCandidateId]
  by_cases hc : (Dict.get? r.identity "candidate_id").getD "" = ""
  · rw [if_pos hc]
    exact Dict.get?_set_ne _ _ _ _ h
  · rw [if_neg hc]

theorem assignCandidateId_documents (filePath : String) (r : CandidateRecord) :
    (assignCandidateId filePath r).documents = r.documents := by
  rw [assignCandidateId]; split <;> rfl

theorem assignCandidateId_education (filePath : String) (r : CandidateRecord) :
    (assignCandidateId filePath r).education = r.education := by
  rw [assignCandidateId]; split <;> rfl

theorem assignCandidateId_experience (filePath : String) (r : CandidateRecord) :
    (assignCandidateId filePath r).experience = r.experience := by
  rw [assignCandidateId]; split <;> rfl

theorem assignCandidateId_addresses (filePath : String) (r : CandidateRecord) :
    (assignCandidateId filePath r).addresses = r.addresses := by
  rw [assignCandidateId]; split <;> rfl

theorem assignCandidateId_isSome (filePath : String) (r : CandidateRecord)
    (k : String) (h : (Dict.get? r.identity k).isSome) :
    (Dict.get? (assignCandidateId filePath r).identity k).isSome := by
  by_cases hk : k = "candidate_id"
  · subst hk
    rw [assignCandidateId_identity_cid]
    split
    · rfl
    · exact h
  · rw [assignCandidateId_identity_ne _ _ _ hk]; exact h

/-- With the empty generative result, the merge is the identity. -/
theorem mergeResults_llamaEmpty (det : CandidateRecord) :
    mergeResults det llamaEmpty = det := by
  simp [mergeResults, llamaEmpty]

/-! ## Digest shape lemmas -/

theorem leBytes_length (n x : Nat) : (leBytes n x).length = n := by
  induction n generalizing x with
  | zero => rfl
  | succ m ih => simp [leBytes, ih]

theorem md5Bytes_length (msg : List Nat) : (md5Bytes msg).length = 16 := by
  rw [md5Bytes]
  rcases (toChunks (md5Pad msg)).foldl md5Chunk
      (0x67452301, 0xefcdab89, 0x98badcfe, 0x10325476) with ⟨a, b, c, d⟩
  simp [leBytes_length]

theorem hexChars_length (bs : List Nat) : (hexChars bs).length = 2 * bs.length := by
  induction bs with
  | nil => rfl
  | cons b t ih =>
    simp only [hexChars, List.flatMap_cons] at ih ⊢
    simp [ih]
    omega

theorem md5Hexdigest_length (s : String) : (md5Hexdigest s).length = 32 := by
  show (hexChars (md5Bytes (utf8Bytes s))).length = 32
  rw [hexChars_length, md5Bytes_length]

theorem md5Hex8Upper_length (s : String) : (md5Hex8Upper s).length = 8 := by
  show ((((md5Hexdigest s).data.take 8).map Char.toUpper)).length = 8
  rw [List.length_map, List.length_take]
  have h := md5Hexdigest_length s
  rw [show (md5Hexdigest s).length = (md5Hexdigest s).data.length from rfl] at h
  omega

theorem md5Hex8Upper_ne_empty (s : String) : md5Hex8Upper s ≠ "" := by
  intro h
  have := md5Hex8Upper_length s
  rw [h] at this
  simp [String.length] at this

/-- The sixteen lower-case hex characters. -/
def hexAlphabet : List Char := (List.range 16).map Nat.digitChar

/-- The sixteen upper-case hex characters. -/
def hexUpperAlphabet : List Char := hexAlphabet.map Char.toUpper

theorem hexChar_mem (n : Nat) : hexChar n ∈ hexAlphabet := by
  have h : n % 16 < 16 := Nat.mod_lt _ (by norm_num)
  exact List.mem_map_of_mem Nat.digitChar (List.mem_range.mpr h)

theorem hexChars_mem (bs : List Nat) (c : Char) (h : c ∈ hexChars bs) :
    c ∈ hexAlphabet := by
  induction bs with
  | nil => cases h
  | cons b t ih =>
    simp only [hexChars, List.flatMap_cons, List.mem_append, List.mem_cons] at h
    rcases h with h | h
    · rcases h with h | h | h
      · exact h ▸ hexChar_mem _
      · exact h ▸ hexChar_mem _
      · cases h
    · exact ih h

theorem toUpper_hexAlphabet (c : Char) (h : c ∈ hexAlphabet) :
    c.toUpper ∈ hexUpperAlphabet :=
  List.mem_map_of_mem Char.toUpper h

theorem md5Hex8Upper_chars (s : String) (c : Char) (h : c ∈ (md5Hex8Upper s).data) :
    c ∈ hexUpperAlphabet := by
  have h2 : c ∈ ((md5Hexdigest s).data.take 8).map Char.toUpper := h
  rcases List.mem_map.mp h2 with ⟨c0, hc0, rfl⟩
  exact toUpper_hexAlphabet c0
    (hexChars_mem _ _ (List.mem_of_mem_take hc0))

/-- After id assignment, `identity.candidate_id` is present and non-empty,
whatever the merged record held. -/
theorem assignCandidateId_cid_nonempty (filePath : String) (r : CandidateRecord) :
    ∃ c, Dict.get? (assignCandidateId filePath r).identity "candidate_id" = some c ∧
      c ≠ "" := by
  rw [assignCandidateId_identity_cid]
  by_cases h : (Dict.get? r.identity "candidate_id").getD "" = ""
  · rw [if_pos h]
    exact ⟨_, rfl, md5Hex8Upper_ne_empty _⟩
  · rw [if_neg h]
    cases hc : Dict.get? r.identity "candidate_id" with
    | none => rw [hc] at h; simp at h
    | some c =>
      rw [hc] at h
      simp only [Option.getD_some] at h
      exact ⟨c, rfl, h⟩

theorem mergeResults_identity (det : CandidateRecord) (l : LlamaResult) :
    (mergeResults det l).identity =
      if l.identity ≠ [] then
        ensureKeys (mergeDict det.identity l.identity) identityKeys
      else det.identity := rfl

theorem mergeResults_documents (det : CandidateRecord) (l : LlamaResult) :
    (mergeResults det l).documents =
      if l.documents ≠ [] then
        ensureKeys (mergeDict det.documents l.documents) documentKeys
      else det.documents := rfl

/-! ## Claim theorems -/

/-- C5 (code bug): the spec says the phone rule stores the matched 10-digit
mobile number (normalized), but `re.findall` with a pattern containing one
capture group returns the text of that group — the optional country-code
prefix — so the stored value is `""` for `"Phone: 9876543210"` and `"+91"`
for `"Contact: +91-9876543210"`, never the 10-digit number itself. -/
theorem claim_C5_bug :
    Dict.get? (deterministic_extract "Phone: 9876543210").identity "phone" =
      some "" ∧
    Dict.get? (deterministic_extract "Contact: +91-9876543210").identity "phone" =
      some "+91" := by
  decide

/-- C10: on the input `"+916123456789"` — a country-code phone number with no
separators and no earlier standalone 12-digit number — the standalone-12-digit
UAN rule matches the 12 digits of the phone number, so `deterministic_extract`
stores `"916123456789"` as `documents.uan_number`. -/
theorem claim_C10_thm :
    Dict.get? (deterministic_extract "+916123456789").documents "uan_number" =
      some "916123456789" := by
  decide

/-- C2 (corrected): `parse` never raises, but when text extraction recovers no
text it returns the empty mapping `{}` — not a fully-shaped CandidateRecord
with a placeholder identifier; for any non-empty text it does return a record
whose `identity.candidate_id` is present and non-empty. -/
theorem claim_C2_thm (filePath text : String) (l : LlamaResult) :
    (text = "" → parse filePath text l = none) ∧
    (text ≠ "" →
      ∃ r, parse filePath text l = some r ∧
        ∃ c, Dict.get? r.identity "candidate_id" = some c ∧ c ≠ "") := by
  constructor
  · intro h
    simp [parse, h]
  · intro h
    refine ⟨mergedRecord filePath text l, by simp [parse, h], ?_⟩
    exact assignCandidateId_cid_nonempty filePath _

/-- C2 counterexample: with empty extracted text, `parse` returns the empty
mapping, not a CandidateRecord with empty fields and a placeholder id. -/
theorem claim_C2_cex : parse "resume.pdf" "" llamaEmpty = none := rfl

/-- C2 witness: both branches at concrete inputs. -/
theorem claim_C2_witness :
    parse "resume.pdf" "" llamaEmpty = none ∧
    ∃ r, parse "resume.pdf" "x" llamaEmpty = some r ∧
      ∃ c, Dict.get? r.identity "candidate_id" = some c ∧ c ≠ "" :=
  ⟨(claim_C2_thm "resume.pdf" "" llamaEmpty).1 rfl,
   (claim_C2_thm "resume.pdf" "x" llamaEmpty).2 (by decide)⟩

/-- C7 (corrected): for every text, `deterministic_extract` totally succeeds
and yields a record with the data model's five top-level groups (the spec's
count of six is wrong); the rules are independent — each field equals
exactly its own rule's output, so a non-matching rule cannot suppress
another field. -/
theorem claim_C7_thm (text : String) :
    Dict.get? (deterministic_extract text).identity "email" = emailRule text ∧
    Dict.get? (deterministic_extract text).identity "phone" = phoneRule text ∧
    Dict.get? (deterministic_extract text).identity "dob" = dobRule text ∧
    Dict.get? (deterministic_extract text).identity "name" = nameRule text ∧
    Dict.get? (deterministic_extract text).identity "designation" =
      designationRule text ∧
    Dict.get? (deterministic_extract text).identity "gender" = genderRule text ∧
    Dict.get? (deterministic_extract text).identity "nationality" =
      nationalityRule text ∧
    Dict.get? (deterministic_extract text).documents "pan_number" = panRule text ∧
    Dict.get? (deterministic_extract text).documents "uan_number" = uanRule text ∧
    Dict.get? (deterministic_extract text).documents "passport_number" =
      passportRule text ∧
    (deterministic_extract text).education = [] ∧
    (deterministic_extract text).experience = [] ∧
    topLevelGroups.length = 5 := by
  have hi : (deterministic_extract text).identity = detIdentity text := rfl
  have hd : (deterministic_extract text).documents = detDocuments text := rfl
  have he : (deterministic_extract text).education = [] := rfl
  have hx : (deterministic_extract text).experience = [] := rfl
  rw [hi, hd, he, hx]
  exact ⟨detIdentity_email text, detIdentity_phone text, detIdentity_dob text,
    detIdentity_name text, detIdentity_designation text, detIdentity_gender text,
    detIdentity_nationality text, detDocuments_pan text, detDocuments_uan text,
    detDocuments_passport text, rfl, rfl, rfl⟩

/-- C7 counterexample: the output record of `deterministic_extract` has
exactly five top-level groups, not six as the spec states (shown with the
concrete input `""`, whose record carries the same five groups). -/
theorem claim_C7_cex :
    (deterministic_extract "").education = [] ∧
    (deterministic_extract "").experience = [] ∧
    topLevelGroups = ["identity", "documents", "education", "experience",
      "addresses"] ∧
    topLevelGroups.length ≠ 6 := by
  decide

/-- C8 (corrected): the name rule first tries the labeled pattern and falls
back to the line-start pattern, leaving `name` unset when neither matches —
but both patterns are compiled with `re.IGNORECASE`, so neither requires a
capitalized word: the label accepts any-cased words and the fallback accepts
the first line position starting with any letter followed by at least two
letters or whitespace characters. -/
theorem claim_C8_thm (text : String) :
    Dict.get? (deterministic_extract text).identity "name" =
      (match reSearch nameRe1 text with
       | some m => some (pyStrip (m.group 1))
       | none =>
         match reSearch nameRe2 text with
         | some m => some (pyStrip (m.group 1))
         | none => none) := by
  rw [show (deterministic_extract text).identity = detIdentity text from rfl,
    detIdentity_name, nameRule, name_patterns]
  cases h1 : reSearch nameRe1 text with
  | some m => simp [firstSearch, h1]
  | none =>
    cases h2 : reSearch nameRe2 text with
    | some m => simp [firstSearch, h1, h2]
    | none => simp [firstSearch, h1, h2]

/-- C8 counterexample: `"john smith"` contains no capitalized word, so under
the claim the name rule should leave `name` unset; the code (case-insensitive
fallback) sets it to `"john smith"`. -/
theorem claim_C8_cex :
    Dict.get? (deterministic_extract "john smith").identity "name" =
      some "john smith" ∧
    ∀ c ∈ "john smith".data, ¬ c.isUpper := by
  decide

/-- C1 (corrected): when `parse` produces a record, the keys of the data
model are not unconditionally present: `identity.candidate_id` always is,
and the identity (resp. documents) schema keys are all present whenever the
generative result supplies a non-empty identity (resp. documents) group —
but with an empty generative group, keys the deterministic pass did not
extract are simply absent. -/
theorem claim_C1_thm (filePath text : String) (l : LlamaResult) (h : text ≠ "") :
    ∃ r, parse filePath text l = some r ∧
      (Dict.get? r.identity "candidate_id").isSome ∧
      (l.identity ≠ [] → ∀ k ∈ identityKeys, (Dict.get? r.identity k).isSome) ∧
      (l.documents ≠ [] → ∀ k ∈ documentKeys, (Dict.get? r.documents k).isSome) := by
  refine ⟨mergedRecord filePath text l, by simp [parse, h], ?_, ?_, ?_⟩
  · obtain ⟨c, hc, _⟩ :=
      assignCandidateId_cid_nonempty filePath
        (mergeResults (deterministic_extract text) l)
    rw [show mergedRecord filePath text l =
      assignCandidateId filePath (mergeResults (deterministic_extract text) l)
      from rfl, hc]
    rfl
  · intro hne k hk
    rw [show mergedRecord filePath text l =
      assignCandidateId filePath (mergeResults (deterministic_extract text) l)
      from rfl]
    apply assignCandidateId_isSome
    rw [mergeResults_identity, if_pos hne]
    exact ensureKeys_isSome_of_mem _ _ _ hk
  · intro hne k hk
    rw [show mergedRecord filePath text l =
      assignCandidateId filePath (mergeResults (deterministic_extract text) l)
      from rfl, assignCandidateId_documents, mergeResults_documents, if_pos hne]
    exact ensureKeys_isSome_of_mem _ _ _ hk

/-- C1 counterexample: with no generative result, a parse of the text `"x"`
(which matches no rule) yields a record in which `documents.pan_number` and
`identity.email` are absent — keys of the data model are omitted. -/
theorem claim_C1_cex :
    parse "resume.pdf" "x" llamaEmpty =
      some (mergedRecord "resume.pdf" "x" llamaEmpty) ∧
    Dict.get? (mergedRecord "resume.pdf" "x" llamaEmpty).documents
      "pan_number" = none ∧
    Dict.get? (mergedRecord "resume.pdf" "x" llamaEmpty).identity "email" =
      none :=
  ⟨rfl, by decide, by decide⟩

/-- C1 witness: a generative result supplying both groups forces the schema
keys (here `identity.dob` and `documents.valid_to`) to be present. -/
theorem claim_C1_witness :
    ∃ r,
      parse "resume.pdf" "x"
        { identity := [("name", "A")], documents := [("pan_number", "P")],
          education := [], experience := [], addresses := [] } = some r ∧
      (Dict.get? r.identity "candidate_id").isSome ∧
      (Dict.get? r.identity "dob").isSome ∧
      (Dict.get? r.documents "valid_to").isSome := by
  obtain ⟨r, hp, hcid, hid, hdoc⟩ :=
    claim_C1_thm "resume.pdf" "x"
      { identity := [("name", "A")], documents := [("pan_number", "P")],
        education := [], experience := [], addresses := [] } (by decide)
  exact ⟨r, hp, hcid, hid (by decide) "dob" (by decide),
    hdoc (by decide) "valid_to" (by decide)⟩

/-- C4: the merge overwrites an identity or documents field with the
generative value exactly when that value is non-empty; in particular a
generative `email="b@y.com"` replaces a deterministic `"a@x.com"`, while a
generative `email=""` leaves `"a@x.com"` in place. -/
theorem claim_C4_thm (det : CandidateRecord) (l : LlamaResult) (k v : String)
    (hndI : (l.identity.map Prod.fst).Nodup)
    (hndD : (l.documents.map Prod.fst).Nodup) :
    ((k, v) ∈ l.identity → v ≠ "" →
      Dict.get? (mergeResults det l).identity k = some v) ∧
    ((k, "") ∈ l.identity → (Dict.get? det.identity k).isSome →
      Dict.get? (mergeResults det l).identity k = Dict.get? det.identity k) ∧
    ((k, v) ∈ l.documents → v ≠ "" →
      Dict.get? (mergeResults det l).documents k = some v) ∧
    ((k, "") ∈ l.documents → (Dict.get? det.documents k).isSome →
      Dict.get? (mergeResults det l).documents k = Dict.get? det.documents k) ∧
    (Dict.get? det.identity "email" = some "a@x.com" →
      Dict.get?
        (mergeResults det
          { identity := [("email", "b@y.com")], documents := [],
            education := [], experience := [], addresses := [] }).identity
        "email" = some "b@y.com" ∧
      Dict.get?
        (mergeResults det
          { identity := [("email", "")], documents := [], education := [],
            experience := [], addresses := [] }).identity
        "email" = Dict.get? det.identity "email") := by
  refine ⟨?_, ?_, ?_, ?_, ?_⟩
  · intro hm hv
    rw [mergeResults_identity, if_pos (by simp [List.ne_nil_of_mem hm])]
    have hset := mergeDict_get?_of_mem det.identity l.identity k v hndI hm hv
    rw [ensureKeys_get?_of_isSome _ _ _ (by simp [hset]), hset]
  · intro hm hs
    rw [mergeResults_identity, if_pos (by simp [List.ne_nil_of_mem hm])]
    have hkeep := mergeDict_get?_of_mem_empty det.identity l.identity k hndI hm
    rw [ensureKeys_get?_of_isSome _ _ _ (by rw [hkeep]; exact hs), hkeep]
  · intro hm hv
    rw [mergeResults_documents, if_pos (by simp [List.ne_nil_of_mem hm])]
    have hset := mergeDict_get?_of_mem det.documents l.documents k v hndD hm hv
    rw [ensureKeys_get?_of_isSome _ _ _ (by simp [hset]), hset]
  · intro hm hs
    rw [mergeResults_documents, if_pos (by simp [List.ne_nil_of_mem hm])]
    have hkeep := mergeDict_get?_of_mem_empty det.documents l.documents k hndD hm
    rw [ensureKeys_get?_of_isSome _ _ _ (by rw [hkeep]; exact hs), hkeep]
  · intro hdet
    constructor
    · rw [mergeResults_identity, if_pos (by simp)]
      have hset := mergeDict_get?_of_mem det.identity [("email", "b@y.com")]
        "email" "b@y.com" (by simp) (by simp) (by simp)
      rw [ensureKeys_get?_of_isSome _ _ _ (by simp [hset]), hset]
    · rw [mergeResults_identity, if_pos (by simp)]
      have hkeep := mergeDict_get?_of_mem_empty det.identity [("email", "")]
        "email" (by simp) (by simp)
      rw [ensureKeys_get?_of_isSome _ _ _ (by rw [hkeep, hdet]; rfl), hkeep]

/-- C4 witness: the two concrete email scenarios of the spec. -/
theorem claim_C4_witness :
    Dict.get?
      (mergeResults
        { identity := [("email", "a@x.com")], documents := [], education := [],
          experience := [], addresses := [] }
        { identity := [("email", "b@y.com")], documents := [], education := [],
          experience := [], addresses := [] }).identity "email" =
      some "b@y.com" ∧
    Dict.get?
      (mergeResults
        { identity := [("email", "a@x.com")], documents := [], education := [],
          experience := [], addresses := [] }
        { identity := [("email", "")], documents := [], education := [],
          experience := [], addresses := [] }).identity "email" =
      some "a@x.com" := by
  have h :=
    (claim_C4_thm
      { identity := [("email", "a@x.com")], documents := [], education := [],
        experience := [], addresses := [] }
      llamaEmpty "email" "b@y.com" (by decide) (by decide)).2.2.2.2 (by decide)
  exact ⟨h.1, by rw [h.2]; decide⟩

theorem detAddresses_cases (text : String) :
    detAddresses text =
      if addressLines text = [] then []
      else
        [("current", String.intercalate " " ((addressLines text).take 3)),
         ("permanent",
           if 3 < (addressLines text).length then
             String.intercalate " " (((addressLines text).drop 3).take 3)
           else String.intercalate " " ((addressLines text).take 3))] := by
  rw [detAddresses]
  split
  · rfl
  · simp [Dict.set]

/-- C6: the first up-to-3 qualifying address lines are joined with spaces
into `current`, lines at indices 3..5 into `permanent`, with `permanent`
falling back to `current` when at most three lines qualify (reading an
absent key as the empty string, since with no qualifying line the code
leaves both keys unset); and with exactly five qualifying lines L0..L4,
`current` is "L0 L1 L2" and `permanent` is "L3 L4". -/
theorem claim_C6_thm (text : String) :
    ((Dict.get? (deterministic_extract text).addresses "current").getD "" =
      String.intercalate " " ((addressLines text).take 3)) ∧
    ((Dict.get? (deterministic_extract text).addresses "permanent").getD "" =
      if 3 < (addressLines text).length then
        String.intercalate " " (((addressLines text).drop 3).take 3)
      else String.intercalate " " ((addressLines text).take 3)) ∧
    (addressLines text ≠ [] →
      Dict.get? (deterministic_extract text).addresses "current" =
        some (String.intercalate " " ((addressLines text).take 3))) ∧
    (deterministic_extract
        "state L0\nstate L1\nstate L2\nstate L3\nstate L4").addresses =
      [("current", "state L0 state L1 state L2"),
       ("permanent", "state L3 state L4")] := by
  have ha : (deterministic_extract text).addresses = detAddresses text := rfl
  rw [ha, detAddresses_cases]
  by_cases hq : addressLines text = []
  · rw [if_pos hq, hq]
    refine ⟨rfl, rfl, fun hcon => absurd rfl hcon, by decide⟩
  · rw [if_neg hq]
    refine ⟨by simp [Dict.get?], by simp [Dict.get?], fun _ => by simp [Dict.get?],
      by decide⟩

/-- C9: with no model configured the generative result is empty, and the
final record equals the deterministic-only record except that a
`candidate_id` is injected into `identity`; every other identity key and
every other group is unchanged. -/
theorem claim_C9_thm (filePath text : String) (h : text ≠ "") :
    ∃ r, parse filePath text llamaEmpty = some r ∧
      Dict.get? r.identity "candidate_id" =
        some (md5Hex8Upper (cidSource filePath (deterministic_extract text))) ∧
      (∀ k, k ≠ "candidate_id" →
        Dict.get? r.identity k =
          Dict.get? (deterministic_extract text).identity k) ∧
      r.documents = (deterministic_extract text).documents ∧
      r.education = (deterministic_extract text).education ∧
      r.experience = (deterministic_extract text).experience ∧
      r.addresses = (deterministic_extract text).addresses := by
  refine ⟨mergedRecord filePath text llamaEmpty, by simp [parse, h], ?_, ?_, ?_, ?_,
    ?_, ?_⟩ <;>
    rw [show mergedRecord filePath text llamaEmpty =
      assignCandidateId filePath
        (mergeResults (deterministic_extract text) llamaEmpty) from rfl,
      mergeResults_llamaEmpty]
  · rw [assignCandidateId_identity_cid]
    have hnone : Dict.get? (deterministic_extract text).identity "candidate_id" =
        none := detIdentity_no_candidate_id text
    rw [hnone]
    rfl
  · intro k hk
    exact assignCandidateId_identity_ne filePath _ k hk
  · exact assignCandidateId_documents filePath _
  · exact assignCandidateId_education filePath _
  · exact assignCandidateId_experience filePath _
  · exact assignCandidateId_addresses filePath _

/-- C9 witness: the no-model scenario at a concrete input (the identity
equality instantiated at the key `"email"`). -/
theorem claim_C9_witness :
    ∃ r, parse "cv.pdf" "x" llamaEmpty = some r ∧
      Dict.get? r.identity "candidate_id" =
        some (md5Hex8Upper (cidSource "cv.pdf" (deterministic_extract "x"))) ∧
      Dict.get? r.identity "email" =
        Dict.get? (deterministic_extract "x").identity "email" ∧
      r.documents = (deterministic_extract "x").documents ∧
      r.education = (deterministic_extract "x").education ∧
      r.experience = (deterministic_extract "x").experience ∧
      r.addresses = (deterministic_extract "x").addresses := by
  obtain ⟨r, hp, hcid, hne, hdoc, hedu, hexp, haddr⟩ :=
    claim_C9_thm "cv.pdf" "x" (by decide)
  exact ⟨r, hp, hcid, hne "email" (by decide), hdoc, hedu, hexp, haddr⟩

/-- C3: whenever `parse` produces a record, `identity.candidate_id` is
present and non-empty; when the merge did not recover one, it is the MD5
digest of the resolved email (or, with no resolvable email, of the file
path), truncated to 8 hex characters and upper-cased — hence two parses
resolving the same non-empty email agree on the identifier, and a parse
with no email derives it reproducibly from the path. -/
theorem claim_C3_thm (filePath text : String) (l : LlamaResult) (h : text ≠ "") :
    ∃ c, parse filePath text l = some (mergedRecord filePath text l) ∧
      Dict.get? (mergedRecord filePath text l).identity "candidate_id" =
        some c ∧
      c ≠ "" ∧
      ((Dict.get? (mergeResults (deterministic_extract text) l).identity
          "candidate_id").getD "" = "" →
        c = md5Hex8Upper
          (cidSource filePath (mergeResults (deterministic_extract text) l)) ∧
        c.length = 8 ∧ ∀ ch ∈ c.data, ch ∈ hexUpperAlphabet) ∧
      ((Dict.get? (mergeResults (deterministic_extract text) l).identity
          "candidate_id").getD "" = "" →
        (Dict.get? (mergeResults (deterministic_extract text) l).identity
          "email").getD "" = "" →
        c = md5Hex8Upper filePath) ∧
      (∀ filePath2 text2 l2 c2, text2 ≠ "" →
        Dict.get? (mergedRecord filePath2 text2 l2).identity "candidate_id" =
          some c2 →
        (Dict.get? (mergeResults (deterministic_extract text) l).identity
          "candidate_id").getD "" = "" →
        (Dict.get? (mergeResults (deterministic_extract text2) l2).identity
          "candidate_id").getD "" = "" →
        (Dict.get? (mergeResults (deterministic_extract text) l).identity
          "email").getD "" ≠ "" →
        (Dict.get? (mergeResults (deterministic_extract text2) l2).identity
          "email").getD "" =
          (Dict.get? (mergeResults (deterministic_extract text) l).identity
            "email").getD "" →
        c2 = c) := by
  obtain ⟨c, hc, hcne⟩ :=
    assignCandidateId_cid_nonempty filePath
      (mergeResults (deterministic_extract text) l)
  have hrec : mergedRecord filePath text l =
      assignCandidateId filePath (mergeResults (deterministic_extract text) l) :=
    rfl
  refine ⟨c, by simp [parse, h], hrec ▸ hc, hcne, ?_, ?_, ?_⟩
  · intro hmiss
    have := assignCandidateId_identity_cid filePath
      (mergeResults (deterministic_extract text) l)
    rw [hc, if_pos hmiss] at this
    obtain rfl : c = md5Hex8Upper
        (cidSource filePath (mergeResults (deterministic_extract text) l)) :=
      (Option.some.injEq _ _).mp this
    exact ⟨rfl, md5Hex8Upper_length _, fun ch hch => md5Hex8Upper_chars _ ch hch⟩
  · intro hmiss hmail
    have := assignCandidateId_identity_cid filePath
      (mergeResults (deterministic_extract text) l)
    rw [hc, if_pos hmiss] at this
    obtain rfl : c = md5Hex8Upper
        (cidSource filePath (mergeResults (deterministic_extract text) l)) :=
      (Option.some.injEq _ _).mp this
    rw [cidSource, hmail]
    simp
  · intro filePath2 text2 l2 c2 _h2 hc2 hmiss hmiss2 hmail hmaileq
    have he1 := assignCandidateId_identity_cid filePath
      (mergeResults (deterministic_extract text) l)
    rw [hc, if_pos hmiss] at he1
    obtain rfl : c = md5Hex8Upper
        (cidSource filePath (mergeResults (deterministic_extract text) l)) :=
      (Option.some.injEq _ _).mp he1
    have he2 := assignCandidateId_identity_cid filePath2
      (mergeResults (deterministic_extract text2) l2)
    rw [show Dict.get?
        (assignCandidateId filePath2
          (mergeResults (deterministic_extract text2) l2)).identity
        "candidate_id" =
        Dict.get? (mergedRecord filePath2 text2 l2).identity "candidate_id"
      from rfl, hc2, if_pos hmiss2] at he2
    obtain rfl : c2 = md5Hex8Upper
        (cidSource filePath2 (mergeResults (deterministic_extract text2) l2)) :=
      (Option.some.injEq _ _).mp he2
    have hs1 : cidSource filePath (mergeResults (deterministic_extract text) l) =
        (Dict.get? (mergeResults (deterministic_extract text) l).identity
          "email").getD "" := by
      rw [cidSource, if_pos hmail]
    have hmail2 : (Dict.get? (mergeResults (deterministic_extract text2) l2).identity
        "email").getD "" ≠ "" := by
      rw [hmaileq]; exact hmail
    have hs2 : cidSource filePath2 (mergeResults (deterministic_extract text2) l2) =
        (Dict.get? (mergeResults (deterministic_extract text2) l2).identity
          "email").getD "" := by
      rw [cidSource, if_pos hmail2]
    rw [hs1, hs2, hmaileq]

/-- C3 witness: a parse with no recoverable email derives the identifier
from the file path. -/
theorem claim_C3_witness :
    ∃ c, Dict.get? (mergedRecord "cv.pdf" "x" llamaEmpty).identity
        "candidate_id" = some c ∧
      c ≠ "" ∧ c = md5Hex8Upper "cv.pdf" := by
  obtain ⟨c, hparse, hget, hne, hgen, hpath, hdet⟩ :=
    claim_C3_thm "cv.pdf" "x" llamaEmpty (by decide)
  exact ⟨c, hget, hne, hpath (by decide) (by decide)⟩

/-- C6 witness: the five-qualifying-line scenario, with the key present. -/
theorem claim_C6_witness :
    Dict.get?
      (deterministic_extract
        "state L0\nstate L1\nstate L2\nstate L3\nstate L4").addresses
      "current" =
      some (String.intercalate " "
        ((addressLines
          "state L0\nstate L1\nstate L2\nstate L3\nstate L4").take 3)) :=
  (claim_C6_thm "state L0\nstate L1\nstate L2\nstate L3\nstate L4").2.2.1
    (by decide)
